import Mathlib

/-!
Verification of the mideapage media-library worker against its specification.

The definitions below are shallow embeddings of the TypeScript handlers:

* `requireLogin` — src/auth.ts (session gate middleware);
* `serveMovieImage` — the poster/fanart image handler with the id-aliasing
  redirect guard (movieApi, image logic revision);
* `itemsTotalPages` / `itemsTotalPagesAlt` — the TotalPages field of
  GET /api_movies/items, in its two revisions (`Math.ceil(total/limit) || 1`
  in src/movieApi.ts, `|| 0` in the other revision of the same handler);
* `buildMovieWhereClauseAndParams` — src/dbUtils.ts (filter predicate builder);
* `parseJsonField` — src/dbUtils.ts, over an exact model of `JSON.parse` /
  `JSON.stringify` restricted to integer-valued numbers;
* `precomputedRelatedResponse` — the related-items blending loop;
* `postMovieCollection` — POST /api_movies/movie_collections.

JavaScript platform primitives (`parseInt`, `String.prototype.trim`,
`split`, truthiness of strings and numbers) are modelled exactly where the
handlers rely on them.
-/

namespace MediaPage

/-! ## JavaScript string primitives -/

/-- Whitespace characters recognised by `String.prototype.trim` and by the
leading-whitespace skip of `parseInt` (the common ASCII subset). -/
def isJsWs (c : Char) : Bool :=
  c = ' ' || c = '\t' || c = '\n' || c = '\r' || c = '\x0b' || c = '\x0c'

/-- `String.prototype.trim`. -/
def jsTrim (s : String) : String :=
  String.mk (((s.toList.dropWhile isJsWs).reverse.dropWhile isJsWs).reverse)

/-- `String.prototype.startsWith`. -/
def jsStartsWith (s p : String) : Bool :=
  p.toList.isPrefixOf s.toList

def isDecDigit (c : Char) : Bool := '0' ≤ c && c ≤ '9'

def decDigitVal (c : Char) : Nat := c.toNat - '0'.toNat

def natOfDigits (ds : List Char) : Nat :=
  ds.foldl (fun a c => a * 10 + decDigitVal c) 0

/-- `parseInt(s, 10)`: skip leading whitespace, read an optional sign and then
the longest run of decimal digits; `none` models the `NaN` result when no
digit follows (the handlers only test `isNaN` and use the parsed value). -/
def jsParseInt (s : String) : Option Int :=
  let cs := s.toList.dropWhile isJsWs
  match cs with
  | '-' :: t =>
      let ds := t.takeWhile isDecDigit
      if ds = [] then none else some (-(natOfDigits ds : Int))
  | '+' :: t =>
      let ds := t.takeWhile isDecDigit
      if ds = [] then none else some (natOfDigits ds : Int)
  | t =>
      let ds := t.takeWhile isDecDigit
      if ds = [] then none else some (natOfDigits ds : Int)

/-- `replace(/\/\//g, '/')` on the character list: each non-overlapping pair
of slashes collapses to one, scanning left to right. -/
def collapseDoubleSlash : List Char → List Char
  | '/' :: '/' :: rest => '/' :: collapseDoubleSlash rest
  | c :: rest => c :: collapseDoubleSlash rest
  | [] => []

def jsReplaceDoubleSlash (s : String) : String :=
  String.mk (collapseDoubleSlash s.toList)

/-! ## Auth gate (src/auth.ts, `requireLogin`) -/

/-- The decoded JWT payload; only `loggedIn` is inspected by the gate. -/
structure JwtPayload where
  loggedIn : Bool
deriving DecidableEq, Repr

/-- Outcome of the middleware: pass the request on, answer 401 JSON, or
redirect.  The `deleteCookie` side effect on an invalid session is not
modelled (no claim mentions it). -/
inductive AuthOutcome where
  | next
  | unauthorized (message : String)
  | redirect (location : String) (status : Nat)
deriving DecidableEq, Repr

/-- The public allow-list, exactly as in the source (LOGIN_PATH resolves to
"/login", which is also listed literally). -/
def allowedPaths : List String := ["/login", "/login", "/static/", "/favicon.ico"]

def isApiPath (path : String) : Bool :=
  jsStartsWith path "/api_movies/" || jsStartsWith path "/api/"

/-- `requireLogin` from src/auth.ts.  `verify` abstracts `verifyJwt` (the
hono/jwt check against the session secret); `cookie` is the raw
`auth_session` cookie when present.  An empty cookie string is falsy in JS,
so it takes the no-token branch. -/
def requireLogin (verify : String → Option JwtPayload) (path : String)
    (cookie : Option String) : AuthOutcome :=
  if allowedPaths.any (fun p => jsStartsWith path p) then .next
  else
    match cookie with
    | none =>
        if isApiPath path then .unauthorized "Authentication required."
        else .redirect "/login" 307
    | some t =>
        if t = "" then
          if isApiPath path then .unauthorized "Authentication required."
          else .redirect "/login" 307
        else
          match verify t with
          | none =>
              if isApiPath path then .unauthorized "Invalid session."
              else .redirect "/login" 307
          | some payload =>
              if payload.loggedIn then .next
              else
                if isApiPath path then .unauthorized "Invalid session."
                else .redirect "/login" 307

/-- The request fails authentication: no cookie, an empty cookie, a token the
verifier rejects, or a payload without `loggedIn`. -/
def sessionRejects (verify : String → Option JwtPayload)
    (cookie : Option String) : Prop :=
  match cookie with
  | none => True
  | some t => t = "" ∨ verify t = none ∨ ∃ p, verify t = some p ∧ p.loggedIn = false

/-- The request carries a token the verifier accepts with `loggedIn = true`. -/
def sessionAccepts (verify : String → Option JwtPayload)
    (cookie : Option String) : Prop :=
  ∃ t p, cookie = some t ∧ t ≠ "" ∧ verify t = some p ∧ p.loggedIn = true

/-! ## Image serving with identifier aliasing (`serveMovieImage`) -/

/-- The columns of a `movies` row read by the image handler
(`SELECT uniqueid_num FROM movies WHERE id = ?`). -/
structure MovieRow where
  id : Int
  uniqueid_num : Option String
deriving DecidableEq, Repr

structure MoviesDb where
  rows : List MovieRow
deriving DecidableEq, Repr

/-- `WHERE id = ?` with `.first()`: the first row whose id matches. -/
def findById (db : MoviesDb) (k : Int) : Option MovieRow :=
  db.rows.find? (fun r => r.id == k)

inductive HttpImageResponse where
  | file (r2Key : String)
  | redirect (location : String) (status : Nat)
  | notFound (body : String)
deriving DecidableEq, Repr

/-- `effectiveId.split('-')[0]`. -/
def dashCategory (s : String) : String :=
  String.mk (s.toList.takeWhile (fun c => c ≠ '-'))

/-- The R2 key template of `serveMovieImage`. -/
def movieImageR2Key (assetsBase imageType effectiveId : String) : String :=
  jsReplaceDoubleSlash
    (assetsBase ++ "/movies/movies_poster/" ++ dashCategory effectiveId ++ "/"
      ++ effectiveId ++ "_" ++ imageType ++ ".avif")

/-- `serveMovieImage` (poster/fanart helper): a numeric id is resolved to the
row's `uniqueid_num`; a missing row or a null/empty `uniqueid_num` is 404; a
`uniqueid_num` different from the requested string is answered with a 301 to
the same endpoint addressed by it; an equal one is served directly (the
redirect-loop guard).  A non-numeric request serves directly with no lookup. -/
def serveMovieImage (assetsBase : String) (db : MoviesDb) (imageType : String)
    (movieIdOrNum : String) : HttpImageResponse :=
  match jsParseInt movieIdOrNum with
  | some k =>
      match findById db k with
      | none => .notFound (imageType ++ " not found for ID " ++ movieIdOrNum)
      | some row =>
          match row.uniqueid_num with
          | none => .notFound (imageType ++ " not found for ID " ++ movieIdOrNum)
          | some u =>
              if u = "" then
                .notFound (imageType ++ " not found for ID " ++ movieIdOrNum)
              else if u ≠ movieIdOrNum then
                .redirect ("/api_movies/images/" ++ imageType ++ "/" ++ u) 301
              else .file (movieImageR2Key assetsBase imageType u)
  | none => .file (movieImageR2Key assetsBase imageType movieIdOrNum)

/-- The one-movie database of the C1 counterexample: the record's external
identifier is the numeric string of a different (absent) id. -/
def c1ExampleDb : MoviesDb := ⟨[{ id := 1, uniqueid_num := some "2" }]⟩

/-- A database whose external identifier is a typical non-numeric id. -/
def c1WitnessDb : MoviesDb := ⟨[{ id := 1, uniqueid_num := some "abc-7" }]⟩

/-! ## Pagination metadata of GET /api_movies/items -/

/-- `Math.ceil(n / p)` for natural counts and a positive page size (exact in
floating point for the integer magnitudes a row count can take). -/
def ceilDiv (n p : Nat) : Nat := (n + p - 1) / p

/-- `TotalPages: Math.ceil(totalCount / limit) || 1` (src/movieApi.ts; the
`|| 1` is commented "Avoid 0 total pages if count is 0"). -/
def itemsTotalPages (totalCount limit : Nat) : Nat :=
  if ceilDiv totalCount limit = 0 then 1 else ceilDiv totalCount limit

/-- `TotalPages: Math.ceil(totalCount / limit) || 0` (the part_000/part_001
revision of the same handler). -/
def itemsTotalPagesAlt (totalCount limit : Nat) : Nat :=
  if ceilDiv totalCount limit = 0 then 0 else ceilDiv totalCount limit

/-! ## Filter-predicate construction (src/dbUtils.ts,
`buildMovieWhereClauseAndParams`) -/

/-- `Array.prototype.join(sep)`. -/
def joinSep (sep : String) : List String → String
  | [] => ""
  | [x] => x
  | x :: y :: rest => x ++ sep ++ joinSep sep (y :: rest)

/-- The filter keys read from the request's query dictionary.  A key is
either absent or carries a string value; all other query keys are ignored by
the builder.  The third field models the source key whose name ends in a
token this development cannot spell (the uniqueid_num starts-with filter). -/
structure MovieArgs where
  SearchTerm : Option String := none
  uniqueid_num_fuzzy : Option String := none
  uniqueid_num_starts : Option String := none
  Genres : Option String := none
  ParentId : Option String := none
  IncludeItemTypes : Option String := none
  personIds : Option String := none
  studioIds : Option String := none
  seriesName : Option String := none
deriving DecidableEq, Repr

/-- JS truthiness of a possibly-absent string (`if (argsDict.Key)`). -/
def truthyStr : Option String → Bool
  | none => false
  | some s => s != ""

/-- Split a character list at every occurrence of `sep` (occurrences are
dropped; empty groups are kept, matching `String.prototype.split`). -/
def splitOnChar (sep : Char) : List Char → List (List Char)
  | [] => [[]]
  | c :: rest =>
      match splitOnChar sep rest with
      | [] => [[]]
      | g :: gs => if c = sep then [] :: g :: gs else (c :: g) :: gs

/-- `s.split(sep)` for a one-character separator. -/
def jsSplit (s : String) (sep : Char) : List String :=
  (splitOnChar sep s.toList).map String.mk

/-- `Genres.split(',')` with each token trimmed and empty tokens dropped
(the loop body skips a token that trims to nothing). -/
def genreTokens (g : String) : List String :=
  ((jsSplit g ',').map jsTrim).filter (fun t => t != "")

def searchPiece (args : MovieArgs) : List String × List String :=
  match args.SearchTerm with
  | some term =>
      if term != "" then
        let t := "%" ++ term ++ "%"
        (["(" ++ joinSep " OR "
            ["title LIKE ?", "plot LIKE ?", "director LIKE ?", "studio LIKE ?",
              "uniqueid_num LIKE ?", "actors LIKE ?"] ++ ")"],
          [t, t, t, t, t, t])
      else ([], [])
  | none => ([], [])

def fuzzyPiece (args : MovieArgs) : List String × List String :=
  match args.uniqueid_num_fuzzy with
  | some v => if v != "" then (["uniqueid_num LIKE ?"], ["%" ++ v ++ "%"]) else ([], [])
  | none => ([], [])

def idStartsPiece (args : MovieArgs) : List String × List String :=
  match args.uniqueid_num_starts with
  | some v => if v != "" then (["uniqueid_num LIKE ?"], [v ++ "%"]) else ([], [])
  | none => ([], [])

def genresPiece (args : MovieArgs) : List String × List String :=
  match args.Genres with
  | some g =>
      if g != "" then
        (if genreTokens g = [] then []
          else ["(" ++ joinSep " OR " ((genreTokens g).map (fun _ => "genres LIKE ?")) ++ ")"],
          (genreTokens g).map (fun t => "%\"" ++ t ++ "\"%"))
      else ([], [])
  | none => ([], [])

def parentPiece (args : MovieArgs) : List String × List String :=
  match args.ParentId with
  | some v => if v != "" then (["root_folder = ?"], [v]) else ([], [])
  | none => ([], [])

def itemTypesPiece (args : MovieArgs) : List String × List String :=
  match args.IncludeItemTypes with
  | some v =>
      if v = "Movie" then (["(set_name IS NULL OR set_name = '')"], [])
      else if v = "Series" then (["(set_name IS NOT NULL AND set_name != '')"], [])
      else ([], [])
  | none => ([], [])

def personPiece (args : MovieArgs) : List String × List String :=
  match args.personIds with
  | some v =>
      if v != "" then
        (["(" ++ joinSep " OR " ["actors LIKE ?", "director = ?", "director LIKE ?"] ++ ")"],
          ["%\"name\":\"" ++ v ++ "\"%", v, "%\"" ++ v ++ "\"%"])
      else ([], [])
  | none => ([], [])

def studioPiece (args : MovieArgs) : List String × List String :=
  match args.studioIds with
  | some v => if v != "" then (["studio = ?"], [v]) else ([], [])
  | none => ([], [])

def seriesPiece (args : MovieArgs) : List String × List String :=
  match args.seriesName with
  | some v => if v != "" then (["set_name = ?"], [v]) else ([], [])
  | none => ([], [])

/-- The per-filter contributions, in the push order of the source. -/
def movieFilterPieces (args : MovieArgs) : List (List String × List String) :=
  [searchPiece args, fuzzyPiece args, idStartsPiece args, genresPiece args,
    parentPiece args, itemTypesPiece args, personPiece args, studioPiece args,
    seriesPiece args]

def movieConditions (args : MovieArgs) : List String :=
  ((movieFilterPieces args).map Prod.fst).flatten

def movieParams (args : MovieArgs) : List String :=
  ((movieFilterPieces args).map Prod.snd).flatten

/-- `buildMovieWhereClauseAndParams` from src/dbUtils.ts: the clause is the
AND-join of the collected conditions (or the always-true "1=1" when none),
and the positional parameter list collects the bound user values in the same
pass. -/
def buildMovieWhereClauseAndParams (args : MovieArgs) : String × List String :=
  (if movieConditions args = [] then "1=1"
    else joinSep " AND " (movieConditions args),
    movieParams args)

/-! Spec-side descriptions of the clause shape (spec section 4.1), used to
state C2 and C6 against the builder. -/

/-- The OR-join of one "genres LIKE ?" test per genre value, parenthesized. -/
def genreOrClause (k : Nat) : String :=
  "(" ++ joinSep " OR " (List.replicate k "genres LIKE ?") ++ ")"

/-- How many comma-separated genre values survive trimming. -/
def genreTokenCount (args : MovieArgs) : Nat :=
  match args.Genres with
  | some g => (genreTokens g).length
  | none => 0

/-- Which of the three IncludeItemTypes behaviours applies: 0 for "Movie",
1 for "Series", 2 for anything else (including absence). -/
def itemTypeCase (args : MovieArgs) : Nat :=
  match args.IncludeItemTypes with
  | some v => if v = "Movie" then 0 else if v = "Series" then 1 else 2
  | none => 2

/-- The presence (JS truthiness) of each filter key, in source order. -/
def presenceMask (args : MovieArgs) : List Bool :=
  [truthyStr args.SearchTerm, truthyStr args.uniqueid_num_fuzzy,
    truthyStr args.uniqueid_num_starts, truthyStr args.Genres,
    truthyStr args.ParentId, truthyStr args.IncludeItemTypes,
    truthyStr args.personIds, truthyStr args.studioIds,
    truthyStr args.seriesName]

/-- The sub-clause contributed by each present filter key, in source order,
as the spec describes them: one fixed fragment per key, with the genre list
OR-joined inside a single parenthesized fragment. -/
def movieSubclauses (args : MovieArgs) : List String :=
  (if truthyStr args.SearchTerm then
      ["(" ++ joinSep " OR "
        ["title LIKE ?", "plot LIKE ?", "director LIKE ?", "studio LIKE ?",
          "uniqueid_num LIKE ?", "actors LIKE ?"] ++ ")"]
    else [])
  ++ (if truthyStr args.uniqueid_num_fuzzy then ["uniqueid_num LIKE ?"] else [])
  ++ (if truthyStr args.uniqueid_num_starts then ["uniqueid_num LIKE ?"] else [])
  ++ (if genreTokenCount args = 0 then [] else [genreOrClause (genreTokenCount args)])
  ++ (if truthyStr args.ParentId then ["root_folder = ?"] else [])
  ++ (if itemTypeCase args = 0 then ["(set_name IS NULL OR set_name = '')"]
      else if itemTypeCase args = 1 then ["(set_name IS NOT NULL AND set_name != '')"]
      else [])
  ++ (if truthyStr args.personIds then
        ["(" ++ joinSep " OR " ["actors LIKE ?", "director = ?", "director LIKE ?"] ++ ")"]
      else [])
  ++ (if truthyStr args.studioIds then ["studio = ?"] else [])
  ++ (if truthyStr args.seriesName then ["set_name = ?"] else [])

/-- Number of '?' placeholders in a SQL fragment. -/
def countPlaceholders (s : String) : Nat := s.toList.count '?'

/-! ## Related-items blending
(GET /api_movies/items/:item_id_or_num/precomputed_related) -/

/-- The part of a mapped movie dict the blending loop inspects: the
Emby-style `Id` field set by `movieRowToDict` (the row id, absent when the
row had none).  The other response fields ride along unchanged and play no
role in the blend. -/
structure MovieDict where
  Id : Option Int
  Name : Option String := none
deriving DecidableEq, Repr

/-- JS truthiness of `movieDict.Id`: undefined and the number 0 are falsy. -/
def truthyId : Option Int → Bool
  | none => false
  | some n => n != 0

/-- The candidate loop of the handler: walk the shuffled genre candidates,
stop as soon as `numPicks` items are collected, and keep a candidate exactly
when its Id is truthy and not yet in the seen set (`relatedIdsSoFar`); a
kept candidate's Id joins the seen set. -/
def genrePickLoop (numPicks : Nat) :
    List MovieDict → List (Option Int) → List MovieDict → List MovieDict
  | [], _, acc => acc.reverse
  | m :: rest, seen, acc =>
      if numPicks ≤ acc.length then acc.reverse
      else if truthyId m.Id = true ∧ m.Id ∉ seen then
        genrePickLoop numPicks rest (m.Id :: seen) (m :: acc)
      else genrePickLoop numPicks rest seen acc

/-- The discovery suffix: the loop runs only when the configured pick count
is positive, seeded with the Ids of the ranked primary list. -/
def genreRandomRelatedList (numPicks : Nat)
    (primary candidates : List MovieDict) : List MovieDict :=
  if 0 < numPicks then
    genrePickLoop numPicks candidates (primary.map MovieDict.Id) []
  else []

/-- The response body: the ranked primary list followed by the discovery
suffix. -/
def precomputedRelatedResponse (numPicks : Nat)
    (primary candidates : List MovieDict) : List MovieDict :=
  primary ++ genreRandomRelatedList numPicks primary candidates

/-! ## Movie collections (POST /api_movies/movie_collections, part_001) -/

/-- The movie_collections table with its autoincrement counter: `nextId` is
the id `INSERT ... RETURNING id` hands back next. -/
structure MovieCollectionsDb where
  nextId : Nat
  rows : List (Nat × String)
deriving DecidableEq, Repr

inductive CollectionPostResult where
  | badRequest (error : String)
  | conflict (error : String)
  | created (id : Nat) (name : String)
deriving DecidableEq, Repr

/-- The UNIQUE constraint on collection names: the D1 insert raises
"UNIQUE constraint failed" exactly when a row with the same name exists. -/
def nameTaken (db : MovieCollectionsDb) (name : String) : Bool :=
  db.rows.any (fun r => r.2 == name)

/-- POST /api_movies/movie_collections: `payload.name?.trim()` must be
truthy or the request is a 400 with no insert; a name violating the UNIQUE
constraint is a 409 with no insert; otherwise the row is inserted and the
generated id is returned with the trimmed name as a 201. -/
def postMovieCollection (db : MovieCollectionsDb) (payloadName : Option String) :
    CollectionPostResult × MovieCollectionsDb :=
  match payloadName.map jsTrim with
  | none => (.badRequest "Name required", db)
  | some t =>
      if t = "" then (.badRequest "Name required", db)
      else if nameTaken db t then (.conflict "Collection name already exists", db)
      else (.created db.nextId t,
        { nextId := db.nextId + 1, rows := db.rows ++ [(db.nextId, t)] })

/-- A concrete collections table for the C7 witness. -/
def c7Db : MovieCollectionsDb := { nextId := 5, rows := [(1, "Favorites")] }

/-! ## A model of JSON.parse / JSON.stringify

`parseJsonField` (src/dbUtils.ts) feeds a stored column value to
`JSON.parse` and falls back to comma-splitting when parsing throws.  The
platform codec is modelled here over values whose numbers are
integer-valued: the repository's JSON-encoded columns hold strings, and
arrays/objects of strings (genres, tags, actors, stream files), so this
covers the stored data exactly; fraction/exponent numerals and lone
surrogate escapes, which the real parser also accepts, are rejected by the
model. -/

inductive JsonValue where
  | null
  | bool (b : Bool)
  | num (n : Int)
  | str (s : String)
  | arr (elems : List JsonValue)
  | obj (members : List (String × JsonValue))

/-- A JS value as handed to `parseJsonField`: either `undefined` (an absent
column) or a JSON-representable value. -/
inductive JsValue where
  | undef
  | jval (j : JsonValue)

/-- The whitespace JSON.parse skips between tokens. -/
def isJsonWs (c : Char) : Bool :=
  c = ' ' || c = '\t' || c = '\n' || c = '\r'

def skipJsonWs (cs : List Char) : List Char := cs.dropWhile isJsonWs

def hexDigitVal (c : Char) : Option Nat :=
  if '0' ≤ c ∧ c ≤ '9' then some (c.toNat - '0'.toNat)
  else if 'a' ≤ c ∧ c ≤ 'f' then some (c.toNat - 'a'.toNat + 10)
  else if 'A' ≤ c ∧ c ≤ 'F' then some (c.toNat - 'A'.toNat + 10)
  else none

/-- Lowercase hex digit, as JSON.stringify emits in \u00XX escapes. -/
def lowHexChar (n : Nat) : Char :=
  if n < 10 then Char.ofNat (48 + n) else Char.ofNat (87 + n)

/-- The two-character escapes JSON.parse accepts after a backslash. -/
def decodeEscape : Char → Option Char
  | '"' => some '"'
  | '\\' => some '\\'
  | '/' => some '/'
  | 'b' => some '\x08'
  | 'f' => some '\x0c'
  | 'n' => some '\n'
  | 'r' => some '\x0d'
  | 't' => some '\t'
  | _ => none

/-- How JSON.stringify escapes one character of a string: the named
shorthands, \u00XX (lowercase) for other control characters, and the
character itself otherwise. -/
def escapeJsonChar (c : Char) : List Char :=
  if c = '"' then ['\\', '"']
  else if c = '\\' then ['\\', '\\']
  else if c = '\x08' then ['\\', 'b']
  else if c = '\t' then ['\\', 't']
  else if c = '\n' then ['\\', 'n']
  else if c = '\x0c' then ['\\', 'f']
  else if c = '\x0d' then ['\\', 'r']
  else if c.toNat < 32 then
    ['\\', 'u', '0', '0', lowHexChar (c.toNat / 16), lowHexChar (c.toNat % 16)]
  else [c]

/-- A string rendered by JSON.stringify: quote, escaped body, quote. -/
def encodeStringChars (s : String) : List Char :=
  '"' :: ((s.toList.flatMap escapeJsonChar) ++ ['"'])

/-- The body of a JSON string after the opening quote: ends at the closing
quote, decodes escapes, and rejects raw control characters as JSON.parse
does.  \u escapes in the surrogate range are rejected (model restriction:
Lean characters are scalar values). -/
def parseStringBody : List Char → Option (List Char × List Char)
  | [] => none
  | c :: rest =>
      if c = '"' then some ([], rest)
      else if c = '\\' then
        match rest with
        | 'u' :: h1 :: h2 :: h3 :: h4 :: rest2 =>
            (match hexDigitVal h1, hexDigitVal h2, hexDigitVal h3, hexDigitVal h4 with
              | some a, some b, some c3, some d =>
                  let n := ((a * 16 + b) * 16 + c3) * 16 + d
                  if 0xD800 ≤ n ∧ n ≤ 0xDFFF then none
                  else (parseStringBody rest2).map (fun p => (Char.ofNat n :: p.1, p.2))
              | _, _, _, _ => none)
        | e :: rest2 =>
            (match decodeEscape e with
              | some ch => (parseStringBody rest2).map (fun p => (ch :: p.1, p.2))
              | none => none)
        | [] => none
      else if c.toNat < 32 then none
      else (parseStringBody rest).map (fun p => (c :: p.1, p.2))

/-- Decimal digits of `n`, least significant first. -/
def natDigitsRev (n : Nat) : List Nat :=
  if n < 10 then [n] else n % 10 :: natDigitsRev (n / 10)
termination_by n
decreasing_by exact Nat.div_lt_self (by omega) (by omega)

def digitCharOf (d : Nat) : Char := Char.ofNat (48 + d)

/-- Decimal digit characters of `n`, most significant first: the output of
JS number-to-string on a nonnegative integer-valued number. -/
def natChars (n : Nat) : List Char :=
  (natDigitsRev n).reverse.map digitCharOf

/-- JS number-to-string of an integer-valued number (what JSON.stringify
emits): optional minus sign, then decimal digits. -/
def intChars (i : Int) : List Char :=
  if i < 0 then '-' :: natChars i.natAbs else natChars i.natAbs

/-- A JSON natural numeral: the leading digit run, rejecting a leading zero
followed by more digits as the JSON grammar does. -/
def parseJsonNat (cs : List Char) : Option (Nat × List Char) :=
  match cs.takeWhile isDecDigit with
  | [] => none
  | d :: tail =>
      if d = '0' ∧ tail ≠ [] then none
      else some (natOfDigits (d :: tail), cs.dropWhile isDecDigit)

/-- A JSON integer numeral with optional minus sign.  A fraction or exponent
continuation is left unconsumed, so enclosing structure (or the trailing
check of `jsonParse`) rejects non-integer numerals — the model restriction
noted above. -/
def parseJsonNumberChars (cs : List Char) : Option (Int × List Char) :=
  match cs with
  | c :: rest =>
      if c = '-' then (parseJsonNat rest).map (fun p => (-(p.1 : Int), p.2))
      else (parseJsonNat (c :: rest)).map (fun p => ((p.1 : Int), p.2))
  | [] => none

/-- Strip an exact expected character sequence (the tails of the literals
null / true / false). -/
def stripExact : List Char → List Char → Option (List Char)
  | [], cs => some cs
  | p :: ps, c :: cs => if c = p then stripExact ps cs else none
  | _ :: _, [] => none

/-- The recursive-descent JSON parser, by fuel: at each fuel level the
triple holds the value parser, the array-elements parser (after the opening
bracket of a nonempty array) and the object-members parser (after the
opening brace of a nonempty object).  Recursion is structural on the fuel,
so the parser evaluates by reduction. -/
def jsonParsers : Nat →
    (List Char → Option (JsonValue × List Char))
    × (List Char → Option (List JsonValue × List Char))
    × (List Char → Option (List (String × JsonValue) × List Char))
  | 0 => (fun _ => none, fun _ => none, fun _ => none)
  | fuel + 1 =>
      (fun cs =>
        match skipJsonWs cs with
        | [] => none
        | c :: rest =>
            if c = 'n' then (stripExact ['u', 'l', 'l'] rest).map (fun r => (.null, r))
            else if c = 't' then (stripExact ['r', 'u', 'e'] rest).map (fun r => (.bool true, r))
            else if c = 'f' then (stripExact ['a', 'l', 's', 'e'] rest).map (fun r => (.bool false, r))
            else if c = '"' then (parseStringBody rest).map (fun p => (.str (String.mk p.1), p.2))
            else if c = '[' then
              match skipJsonWs rest with
              | ']' :: r => some (.arr [], r)
              | other => ((jsonParsers fuel).2.1 other).map (fun p => (.arr p.1, p.2))
            else if c = '\x7b' then
              match skipJsonWs rest with
              | '\x7d' :: r => some (.obj [], r)
              | other => ((jsonParsers fuel).2.2 other).map (fun p => (.obj p.1, p.2))
            else if c = '-' ∨ isDecDigit c = true then
              (parseJsonNumberChars (c :: rest)).map (fun p => (.num p.1, p.2))
            else none,
      fun cs =>
        match (jsonParsers fuel).1 cs with
        | none => none
        | some (v, r) =>
            match skipJsonWs r with
            | ',' :: r2 => ((jsonParsers fuel).2.1 r2).map (fun p => (v :: p.1, p.2))
            | ']' :: r2 => some ([v], r2)
            | _ => none,
      fun cs =>
        match skipJsonWs cs with
        | '"' :: r =>
            (match parseStringBody r with
              | none => none
              | some (key, r1) =>
                  match skipJsonWs r1 with
                  | ':' :: r2 =>
                      (match (jsonParsers fuel).1 r2 with
                        | none => none
                        | some (v, r3) =>
                            match skipJsonWs r3 with
                            | ',' :: r4 =>
                                ((jsonParsers fuel).2.2 r4).map
                                  (fun p => ((String.mk key, v) :: p.1, p.2))
                            | '\x7d' :: r4 => some ([(String.mk key, v)], r4)
                            | _ => none)
                  | _ => none)
        | _ => none)

def parseJsonValue (fuel : Nat) : List Char → Option (JsonValue × List Char) :=
  (jsonParsers fuel).1

def parseJsonElems (fuel : Nat) : List Char → Option (List JsonValue × List Char) :=
  (jsonParsers fuel).2.1

def parseJsonMembers (fuel : Nat) :
    List Char → Option (List (String × JsonValue) × List Char) :=
  (jsonParsers fuel).2.2

/-- `JSON.parse(s)`: parse one value and insist nothing but whitespace
follows; `none` models the thrown SyntaxError.  The fuel is ample: every
recursion level consumes input. -/
def jsonParse (s : String) : Option JsonValue :=
  match parseJsonValue (s.toList.length + 1) s.toList with
  | some (v, rest) => if skipJsonWs rest = [] then some v else none
  | none => none

mutual

/-- `JSON.stringify` (no indentation): the exact character stream. -/
def renderChars : JsonValue → List Char
  | .null => 'n' :: ['u', 'l', 'l']
  | .bool true => 't' :: ['r', 'u', 'e']
  | .bool false => 'f' :: ['a', 'l', 's', 'e']
  | .num n => intChars n
  | .str s => encodeStringChars s
  | .arr [] => ['[', ']']
  | .arr (x :: xs) => '[' :: (renderChars x ++ renderElemsTail xs ++ [']'])
  | .obj [] => ['\x7b', '\x7d']
  | .obj ((k, v) :: ms) =>
      '\x7b' :: (encodeStringChars k ++ ':' :: renderChars v ++ renderMembersTail ms ++ ['\x7d'])

/-- The remaining elements of an array, each preceded by a comma. -/
def renderElemsTail : List JsonValue → List Char
  | [] => []
  | x :: xs => ',' :: (renderChars x ++ renderElemsTail xs)

/-- The remaining members of an object, each preceded by a comma. -/
def renderMembersTail : List (String × JsonValue) → List Char
  | [] => []
  | (k, v) :: ms => ',' :: (encodeStringChars k ++ ':' :: renderChars v ++ renderMembersTail ms)

end

def jsonStringify (v : JsonValue) : String := String.mk (renderChars v)

/-- `value.split(',').map(s => s.trim()).filter(s => s)` — the fallback of
`parseJsonField` when JSON parsing fails. -/
def commaSplitTrim (s : String) : List String :=
  ((jsSplit s ',').map jsTrim).filter (fun t => t != "")

/-- `parseJsonField` from src/dbUtils.ts: a truthy string is JSON-parsed
(an array decodes to itself, any other value is wrapped in a one-element
array, a parse failure falls back to comma-splitting); an array value is
returned as is; everything else — empty string, null, undefined, and any
non-string non-array value — yields the default empty list. -/
def parseJsonField : JsValue → List JsonValue
  | .jval (.str s) =>
      if s = "" then []
      else
        match jsonParse s with
        | some (.arr xs) => xs
        | some j => [j]
        | none => (commaSplitTrim s).map JsonValue.str
  | .jval (.arr xs) => xs
  | _ => []

/-- The rest of the input cannot extend a numeral: empty, or headed by a
non-digit.  Every JSON delimiter and end-of-input qualifies. -/
def restStopsNumber : List Char → Prop
  | [] => True
  | c :: _ => isDecDigit c = false

end MediaPage

namespace MediaPage

/-! ## Helper lemmas about the clause builder -/

theorem countPlaceholders_append (s t : String) :
    countPlaceholders (s ++ t) = countPlaceholders s + countPlaceholders t := by
  simp [countPlaceholders, String.toList, String.data_append, List.count_append]

theorem countPlaceholders_joinSep (sep : String)
    (hsep : countPlaceholders sep = 0) :
    ∀ l : List String, countPlaceholders (joinSep sep l) = (l.map countPlaceholders).sum
  | [] => by simp [joinSep, countPlaceholders]
  | [x] => by simp [joinSep]
  | x :: y :: rest => by
      have ih := countPlaceholders_joinSep sep hsep (y :: rest)
      simp [joinSep, countPlaceholders_append, hsep] at ih ⊢
      omega

theorem searchPiece_fst (args : MovieArgs) :
    (searchPiece args).1
      = (if truthyStr args.SearchTerm then
          ["(" ++ joinSep " OR "
            ["title LIKE ?", "plot LIKE ?", "director LIKE ?", "studio LIKE ?",
              "uniqueid_num LIKE ?", "actors LIKE ?"] ++ ")"]
        else []) := by
  cases h : args.SearchTerm <;> simp [searchPiece, truthyStr, h] <;> split <;> simp_all

theorem fuzzyPiece_fst (args : MovieArgs) :
    (fuzzyPiece args).1
      = (if truthyStr args.uniqueid_num_fuzzy then ["uniqueid_num LIKE ?"] else []) := by
  cases h : args.uniqueid_num_fuzzy <;> simp [fuzzyPiece, truthyStr, h] <;> split <;> simp_all

theorem idStartsPiece_fst (args : MovieArgs) :
    (idStartsPiece args).1
      = (if truthyStr args.uniqueid_num_starts then ["uniqueid_num LIKE ?"] else []) := by
  cases h : args.uniqueid_num_starts <;> simp [idStartsPiece, truthyStr, h] <;> split <;> simp_all

theorem genresPiece_fst (args : MovieArgs) :
    (genresPiece args).1
      = (if genreTokenCount args = 0 then []
        else [genreOrClause (genreTokenCount args)]) := by
  cases h : args.Genres with
  | none => simp [genresPiece, genreTokenCount, h]
  | some g =>
      simp only [genresPiece, genreTokenCount, h]
      by_cases hg : g = ""
      · subst hg
        rfl
      · rw [if_pos (by simp [hg])]
        by_cases ht : genreTokens g = []
        · simp [ht]
        · rw [if_neg ht, if_neg (by simp [ht])]
          simp [genreOrClause, List.map_const']

theorem parentPiece_fst (args : MovieArgs) :
    (parentPiece args).1
      = (if truthyStr args.ParentId then ["root_folder = ?"] else []) := by
  cases h : args.ParentId <;> simp [parentPiece, truthyStr, h] <;> split <;> simp_all

theorem itemTypesPiece_fst (args : MovieArgs) :
    (itemTypesPiece args).1
      = (if itemTypeCase args = 0 then ["(set_name IS NULL OR set_name = '')"]
        else if itemTypeCase args = 1 then ["(set_name IS NOT NULL AND set_name != '')"]
        else []) := by
  cases h : args.IncludeItemTypes with
  | none => simp [itemTypesPiece, itemTypeCase, h]
  | some v =>
      simp only [itemTypesPiece, itemTypeCase, h]
      by_cases hm : v = "Movie"
      · simp [hm]
      · by_cases hs : v = "Series" <;> simp [hm, hs]

theorem personPiece_fst (args : MovieArgs) :
    (personPiece args).1
      = (if truthyStr args.personIds then
          ["(" ++ joinSep " OR " ["actors LIKE ?", "director = ?", "director LIKE ?"] ++ ")"]
        else []) := by
  cases h : args.personIds <;> simp [personPiece, truthyStr, h] <;> split <;> simp_all

theorem studioPiece_fst (args : MovieArgs) :
    (studioPiece args).1
      = (if truthyStr args.studioIds then ["studio = ?"] else []) := by
  cases h : args.studioIds <;> simp [studioPiece, truthyStr, h] <;> split <;> simp_all

theorem seriesPiece_fst (args : MovieArgs) :
    (seriesPiece args).1
      = (if truthyStr args.seriesName then ["set_name = ?"] else []) := by
  cases h : args.seriesName <;> simp [seriesPiece, truthyStr, h] <;> split <;> simp_all

/-- The imperative condition pushes equal the spec-side sub-clause list. -/
theorem movieConditions_eq_subclauses (args : MovieArgs) :
    movieConditions args = movieSubclauses args := by
  simp only [movieConditions, movieFilterPieces, List.map_cons, List.map_nil,
    List.flatten_cons, List.flatten_nil, movieSubclauses, searchPiece_fst,
    fuzzyPiece_fst, idStartsPiece_fst, genresPiece_fst, parentPiece_fst,
    itemTypesPiece_fst, personPiece_fst, studioPiece_fst, seriesPiece_fst,
    List.append_nil, List.append_assoc]

/-! ## Theorems for the auth gate (C8, C10) -/

/-- C10: the allow-list is matched by `startsWith`, so any path that merely
begins with "/login", "/static/" or "/favicon.ico" bypasses the session
check entirely and the request is forwarded to the next handler. -/
theorem C10_allowlist_matches_by_string_start
    (verify : String → Option JwtPayload) (cookie : Option String)
    (path : String)
    (h : jsStartsWith path "/login" = true ∨ jsStartsWith path "/static/" = true
      ∨ jsStartsWith path "/favicon.ico" = true) :
    requireLogin verify path cookie = AuthOutcome.next := by
  unfold requireLogin
  rw [if_pos]
  simp only [allowedPaths, List.any_cons, List.any_nil, Bool.or_eq_true]
  rcases h with h | h | h <;> simp [h]

/-- Witness for C10 at the concrete path "/loginXYZ" with no cookie at all. -/
theorem C10_witness :
    requireLogin (fun _ => none) "/loginXYZ" none = AuthOutcome.next :=
  C10_allowlist_matches_by_string_start (fun _ => none) none "/loginXYZ"
    (Or.inl (by decide))

/-- C8: off the allow-list, a request that carries no cookie or a cookie the
verifier rejects gets a 401 JSON error on /api/ and /api_movies/ paths and a
redirect to /login elsewhere; a request with a valid logged-in token is
passed through to the routed handler. -/
theorem C8_auth_gate_behaviour
    (verify : String → Option JwtPayload) (path : String)
    (cookie : Option String)
    (hpub : allowedPaths.any (fun p => jsStartsWith path p) = false) :
    (sessionRejects verify cookie →
      (isApiPath path = true →
        ∃ m, requireLogin verify path cookie = AuthOutcome.unauthorized m) ∧
      (isApiPath path = false →
        requireLogin verify path cookie = AuthOutcome.redirect "/login" 307)) ∧
    (sessionAccepts verify cookie →
      requireLogin verify path cookie = AuthOutcome.next) := by
  constructor
  · intro hrej
    unfold requireLogin
    rw [if_neg (by simp [hpub])]
    cases cookie with
    | none => constructor <;> intro hapi <;> simp [hapi]
    | some t =>
        simp only [sessionRejects] at hrej
        by_cases ht : t = ""
        · constructor <;> intro hapi <;> simp [ht, hapi]
        · rcases hrej with rfl | hv | ⟨p, hv, hp⟩
          · exact absurd rfl ht
          · constructor <;> intro hapi <;> simp [ht, hv, hapi]
          · constructor <;> intro hapi <;> simp [ht, hv, hp, hapi]
  · rintro ⟨t, p, rfl, ht, hv, hp⟩
    unfold requireLogin
    rw [if_neg (by simp [hpub])]
    simp [ht, hv, hp]

/-- Witness for C8: a missing cookie on the API path "/api/items" yields a
401, and on the page path "/videos" a 307 redirect to /login. -/
theorem C8_witness :
    (∃ m, requireLogin (fun _ => none) "/api/items" none
        = AuthOutcome.unauthorized m) ∧
    requireLogin (fun _ => none) "/videos" none
        = AuthOutcome.redirect "/login" 307 := by
  have h1 := C8_auth_gate_behaviour (fun _ => none) "/api/items" none (by decide)
  have h2 := C8_auth_gate_behaviour (fun _ => none) "/videos" none (by decide)
  exact ⟨(h1.1 trivial).1 (by decide), (h2.1 trivial).2 (by decide)⟩

/-! ## Theorems for image id aliasing (C1) -/

/-- C1 counterexample: with one record (id 1, external identifier "2") the
request by numeric id 1 does redirect once to the external-identifier URL,
but the redirected request parses "2" as a numeric id, finds no row with
id 2, and answers 404 instead of serving bytes — so the claim that the
redirected request always serves without a further lookup failure is false. -/
theorem C1_counterexample :
    serveMovieImage "assets" c1ExampleDb "poster" "1"
      = HttpImageResponse.redirect "/api_movies/images/poster/2" 301 ∧
    serveMovieImage "assets" c1ExampleDb "poster" "2"
      = HttpImageResponse.notFound "poster not found for ID 2" := by
  constructor <;> decide

/-- C1 (amended): for a numeric request resolving to a row whose non-empty
external identifier equals the request string, the handler serves the storage
object directly with no redirect; when it differs, the handler answers
exactly one 301 to the same endpoint addressed by the external identifier,
and — provided that identifier does not itself parse as a numeric id — the
redirected request serves the storage object directly without any further
redirect. -/
theorem C1_image_id_alias_guard (assetsBase : String) (db : MoviesDb)
    (imageType s u : String) (k : Int) (row : MovieRow)
    (hk : jsParseInt s = some k)
    (hrow : findById db k = some row)
    (hu : row.uniqueid_num = some u)
    (hne : u ≠ "") :
    (u = s →
      serveMovieImage assetsBase db imageType s
        = HttpImageResponse.file (movieImageR2Key assetsBase imageType s)) ∧
    (u ≠ s →
      serveMovieImage assetsBase db imageType s
        = HttpImageResponse.redirect
            ("/api_movies/images/" ++ imageType ++ "/" ++ u) 301 ∧
      (jsParseInt u = none →
        serveMovieImage assetsBase db imageType u
          = HttpImageResponse.file (movieImageR2Key assetsBase imageType u))) := by
  constructor
  · intro hequ
    subst hequ
    simp [serveMovieImage, hk, hrow, hu, hne]
  · intro hnequ
    constructor
    · simp [serveMovieImage, hk, hrow, hu, hne, hnequ]
    · intro hnonnum
      unfold serveMovieImage
      rw [hnonnum]

/-- Witness for C1: a record (id 1, external identifier "abc-7") redirects
once and the redirected request serves the object, all hypotheses concrete. -/
theorem C1_witness :
    serveMovieImage "assets" c1WitnessDb "poster" "1"
      = HttpImageResponse.redirect "/api_movies/images/poster/abc-7" 301 ∧
    serveMovieImage "assets" c1WitnessDb "poster" "abc-7"
      = HttpImageResponse.file (movieImageR2Key "assets" "poster" "abc-7") := by
  have h := C1_image_id_alias_guard "assets" c1WitnessDb "poster" "1" "abc-7" 1
    { id := 1, uniqueid_num := some "abc-7" } (by decide) (by decide) rfl
    (by decide)
  have h2 := h.2 (by decide)
  exact ⟨h2.1, h2.2 (by decide)⟩

/-! ## Theorems for pagination (C3) -/

/-- C3 counterexample: at zero matching records and page size 50 the
src/movieApi.ts handler reports TotalPages = 1 while ceil(0/50) = 0. -/
theorem C3_counterexample : itemsTotalPages 0 50 ≠ ceilDiv 0 50 := by decide

/-- C3 (amended): for a positive page size, TotalPages equals ceil(N/P)
except at N = 0 where src/movieApi.ts deliberately reports 1 — that is, it
equals max 1 (ceil(N/P)); the part_000/part_001 revision of the handler
reports exactly ceil(N/P). -/
theorem C3_total_pages (totalCount limit : Nat) (hp : 0 < limit) :
    itemsTotalPages totalCount limit = max 1 (ceilDiv totalCount limit) ∧
    itemsTotalPagesAlt totalCount limit = ceilDiv totalCount limit := by
  unfold itemsTotalPages itemsTotalPagesAlt
  rcases Nat.eq_zero_or_pos (ceilDiv totalCount limit) with h | h
  · simp [h]
  · rw [if_neg (by omega), if_neg (by omega)]
    omega

/-- Witness for C3 at 101 records and page size 20: six pages. -/
theorem C3_witness : itemsTotalPages 101 20 = 6 := by
  have h := (C3_total_pages 101 20 (by decide)).1
  rw [h]; decide

/-! ## Theorems for the filter-predicate builder (C2, C6, C9) -/

/-- C2: with no filter keys the builder returns the always-true clause "1=1"
and no parameters; otherwise the clause is the AND-join of the per-key
sub-clauses, in which the comma-separated genre values contribute a single
parenthesized OR-join of one "genres LIKE ?" test per value. -/
theorem C2_filter_combination (args : MovieArgs) :
    (args = {} → buildMovieWhereClauseAndParams args = ("1=1", [])) ∧
    (buildMovieWhereClauseAndParams args).1
      = (if movieSubclauses args = [] then "1=1"
        else joinSep " AND " (movieSubclauses args)) := by
  constructor
  · rintro rfl
    rfl
  · simp only [buildMovieWhereClauseAndParams, movieConditions_eq_subclauses]

/-- Witness for C2: the empty argument map produces "1=1" with no params. -/
theorem C2_witness : buildMovieWhereClauseAndParams {} = ("1=1", []) :=
  (C2_filter_combination {}).1 rfl

/-- C6 counterexample: the argument maps carrying IncludeItemTypes "Movie"
and IncludeItemTypes "Series" have the same present filter keys and the same
genre token count, yet produce different clause strings — the clause encodes
which fixed fragment the IncludeItemTypes value selects, so presence alone
does not determine the clause text. -/
theorem C6_counterexample :
    presenceMask { IncludeItemTypes := some "Movie" }
      = presenceMask { IncludeItemTypes := some "Series" } ∧
    genreTokenCount { IncludeItemTypes := some "Movie" }
      = genreTokenCount { IncludeItemTypes := some "Series" } ∧
    (buildMovieWhereClauseAndParams { IncludeItemTypes := some "Movie" }).1
      ≠ (buildMovieWhereClauseAndParams { IncludeItemTypes := some "Series" }).1 := by
  refine ⟨rfl, rfl, ?_⟩
  decide

/-- C6 (amended): the clause string is built from fixed fragments only — two
argument maps with the same presence pattern of filter keys, the same
IncludeItemTypes selection (Movie / Series / other) and the same number of
surviving genre tokens produce character-identical clause strings, whatever
the filter values are; the values reach only the parameter list. -/
theorem C6_clause_value_independence (a b : MovieArgs)
    (hmask : presenceMask a = presenceMask b)
    (hcase : itemTypeCase a = itemTypeCase b)
    (hgen : genreTokenCount a = genreTokenCount b) :
    (buildMovieWhereClauseAndParams a).1 = (buildMovieWhereClauseAndParams b).1 := by
  have hsub : movieSubclauses a = movieSubclauses b := by
    simp only [presenceMask, List.cons.injEq, and_true] at hmask
    obtain ⟨h1, h2, h3, _, h5, _, h7, h8, h9⟩ := hmask
    simp only [movieSubclauses, h1, h2, h3, h5, h7, h8, h9, hgen, hcase]
  simp only [buildMovieWhereClauseAndParams, movieConditions_eq_subclauses, hsub]

/-- Witness for C6: two different search terms yield the same clause. -/
theorem C6_witness :
    (buildMovieWhereClauseAndParams { SearchTerm := some "alpha" }).1
      = (buildMovieWhereClauseAndParams { SearchTerm := some "beta" }).1 :=
  C6_clause_value_independence _ _ (by decide) (by decide) (by decide)

theorem countPlaceholders_genreOrClause (k : Nat) :
    countPlaceholders (genreOrClause k) = k := by
  have h1 : countPlaceholders "genres LIKE ?" = 1 := by decide
  have hjoin : countPlaceholders (joinSep " OR " (List.replicate k "genres LIKE ?")) = k := by
    rw [countPlaceholders_joinSep " OR " (by decide)]
    simp [List.map_replicate, h1, List.sum_replicate]
  have h2 : countPlaceholders "(" = 0 := by decide
  have h3 : countPlaceholders ")" = 0 := by decide
  simp [genreOrClause, countPlaceholders_append, hjoin, h2, h3]

theorem searchPiece_arity (args : MovieArgs) :
    ((searchPiece args).1.map countPlaceholders).sum = (searchPiece args).2.length := by
  cases h : args.SearchTerm with
  | none => simp [searchPiece, h]
  | some term =>
      simp only [searchPiece, h]
      split
      · simp only [List.map_cons, List.map_nil, List.sum_cons, List.sum_nil,
          List.length_cons, List.length_nil]
        decide
      · simp

theorem fuzzyPiece_arity (args : MovieArgs) :
    ((fuzzyPiece args).1.map countPlaceholders).sum = (fuzzyPiece args).2.length := by
  cases h : args.uniqueid_num_fuzzy with
  | none => simp [fuzzyPiece, h]
  | some v =>
      simp only [fuzzyPiece, h]
      split
      · simp only [List.map_cons, List.map_nil, List.sum_cons, List.sum_nil,
          List.length_cons, List.length_nil]
        decide
      · simp

theorem idStartsPiece_arity (args : MovieArgs) :
    ((idStartsPiece args).1.map countPlaceholders).sum = (idStartsPiece args).2.length := by
  cases h : args.uniqueid_num_starts with
  | none => simp [idStartsPiece, h]
  | some v =>
      simp only [idStartsPiece, h]
      split
      · simp only [List.map_cons, List.map_nil, List.sum_cons, List.sum_nil,
          List.length_cons, List.length_nil]
        decide
      · simp

theorem genresPiece_arity (args : MovieArgs) :
    ((genresPiece args).1.map countPlaceholders).sum = (genresPiece args).2.length := by
  cases h : args.Genres with
  | none => simp [genresPiece, h]
  | some g =>
      simp only [genresPiece, h]
      split
      · by_cases ht : genreTokens g = []
        · simp [ht]
        · rw [if_neg ht]
          simp only [List.map_cons, List.map_nil, List.sum_cons, List.sum_nil,
            List.length_map, List.map_const', Nat.add_zero]
          exact countPlaceholders_genreOrClause _
      · simp

theorem parentPiece_arity (args : MovieArgs) :
    ((parentPiece args).1.map countPlaceholders).sum = (parentPiece args).2.length := by
  cases h : args.ParentId with
  | none => simp [parentPiece, h]
  | some v =>
      simp only [parentPiece, h]
      split
      · simp only [List.map_cons, List.map_nil, List.sum_cons, List.sum_nil,
          List.length_cons, List.length_nil]
        decide
      · simp

theorem itemTypesPiece_arity (args : MovieArgs) :
    ((itemTypesPiece args).1.map countPlaceholders).sum = (itemTypesPiece args).2.length := by
  cases h : args.IncludeItemTypes with
  | none => simp [itemTypesPiece, h]
  | some v =>
      simp only [itemTypesPiece, h]
      split
      · simp only [List.map_cons, List.map_nil, List.sum_cons, List.sum_nil,
          List.length_nil]
        decide
      · split
        · simp only [List.map_cons, List.map_nil, List.sum_cons, List.sum_nil,
            List.length_nil]
          decide
        · simp

theorem personPiece_arity (args : MovieArgs) :
    ((personPiece args).1.map countPlaceholders).sum = (personPiece args).2.length := by
  cases h : args.personIds with
  | none => simp [personPiece, h]
  | some v =>
      simp only [personPiece, h]
      split
      · simp only [List.map_cons, List.map_nil, List.sum_cons, List.sum_nil,
          List.length_cons, List.length_nil]
        decide
      · simp

theorem studioPiece_arity (args : MovieArgs) :
    ((studioPiece args).1.map countPlaceholders).sum = (studioPiece args).2.length := by
  cases h : args.studioIds with
  | none => simp [studioPiece, h]
  | some v =>
      simp only [studioPiece, h]
      split
      · simp only [List.map_cons, List.map_nil, List.sum_cons, List.sum_nil,
          List.length_cons, List.length_nil]
        decide
      · simp

theorem seriesPiece_arity (args : MovieArgs) :
    ((seriesPiece args).1.map countPlaceholders).sum = (seriesPiece args).2.length := by
  cases h : args.seriesName with
  | none => simp [seriesPiece, h]
  | some v =>
      simp only [seriesPiece, h]
      split
      · simp only [List.map_cons, List.map_nil, List.sum_cons, List.sum_nil,
          List.length_cons, List.length_nil]
        decide
      · simp

/-- C9: the number of '?' placeholders in the generated clause always equals
the length of the returned parameter list, so the count query and the data
query built from the pair bind without arity mismatch. -/
theorem C9_placeholder_param_arity (args : MovieArgs) :
    countPlaceholders (buildMovieWhereClauseAndParams args).1
      = (buildMovieWhereClauseAndParams args).2.length := by
  have hsum : ((movieConditions args).map countPlaceholders).sum
      = (movieParams args).length := by
    simp only [movieConditions, movieParams, movieFilterPieces, List.map_cons,
      List.map_nil, List.flatten_cons, List.flatten_nil, List.map_append,
      List.sum_append, List.length_append, List.append_nil]
    rw [searchPiece_arity, fuzzyPiece_arity, idStartsPiece_arity,
      genresPiece_arity, parentPiece_arity, itemTypesPiece_arity,
      personPiece_arity, studioPiece_arity, seriesPiece_arity]
  by_cases h : movieConditions args = []
  · have hp : (movieParams args).length = 0 := by
      have h2 := hsum
      rw [h] at h2
      simpa using h2.symm
    simp only [buildMovieWhereClauseAndParams, if_pos h, hp]
    decide
  · simp only [buildMovieWhereClauseAndParams, if_neg h]
    rw [countPlaceholders_joinSep " AND " (by decide), hsum]

/-! ## Theorems for related-items blending (C5) -/

/-- Nothing the pick loop returns carries an Id from `P`, provided `P` is
contained in the seen set and the accumulator already avoids `P`. -/
theorem genrePickLoop_avoids (numPicks : Nat) (P : List (Option Int)) :
    ∀ (cands : List MovieDict) (seen : List (Option Int)) (acc : List MovieDict),
      (∀ z ∈ P, z ∈ seen) → (∀ m ∈ acc, m.Id ∉ P) →
      ∀ m ∈ genrePickLoop numPicks cands seen acc, m.Id ∉ P := by
  intro cands
  induction cands with
  | nil =>
      intro seen acc _ hacc m hm
      simp only [genrePickLoop] at hm
      exact hacc m (List.mem_reverse.mp hm)
  | cons c rest ih =>
      intro seen acc hseen hacc m hm
      simp only [genrePickLoop] at hm
      split at hm
      · exact hacc m (List.mem_reverse.mp hm)
      · split at hm
        · rename_i hcond
          refine ih (c.Id :: seen) (c :: acc) ?_ ?_ m hm
          · intro z hz
            exact List.mem_cons_of_mem _ (hseen z hz)
          · intro x hx
            rcases List.mem_cons.mp hx with rfl | hx'
            · exact fun hin => hcond.2 (hseen _ hin)
            · exact hacc x hx'
        · exact ih seen acc hseen hacc m hm

/-- The pick loop never grows the accumulator past `numPicks`. -/
theorem genrePickLoop_length_le (numPicks : Nat) :
    ∀ (cands : List MovieDict) (seen : List (Option Int)) (acc : List MovieDict),
      acc.length ≤ numPicks →
      (genrePickLoop numPicks cands seen acc).length ≤ numPicks := by
  intro cands
  induction cands with
  | nil => intro seen acc h; simpa [genrePickLoop] using h
  | cons c rest ih =>
      intro seen acc h
      simp only [genrePickLoop]
      split
      · simpa using h
      · rename_i hbreak
        push_neg at hbreak
        split
        · exact ih _ _ (by simpa using hbreak)
        · exact ih _ _ h

/-- Each pick consumes a distinct candidate whose Id avoids `P`, so the loop
adds at most as many items as there are candidates with Ids outside `P`. -/
theorem genrePickLoop_length_le_filter (numPicks : Nat) (P : List (Option Int)) :
    ∀ (cands : List MovieDict) (seen : List (Option Int)) (acc : List MovieDict),
      (∀ z ∈ P, z ∈ seen) →
      (genrePickLoop numPicks cands seen acc).length
        ≤ acc.length + (cands.filter (fun m => decide (m.Id ∉ P))).length := by
  intro cands
  induction cands with
  | nil => intro seen acc _; simp [genrePickLoop]
  | cons c rest ih =>
      intro seen acc hseen
      simp only [genrePickLoop]
      split
      · simp
      · split
        · rename_i hcond
          have hnotP : c.Id ∉ P := fun hin => hcond.2 (hseen _ hin)
          have h2 := ih (c.Id :: seen) (c :: acc)
            (fun z hz => List.mem_cons_of_mem _ (hseen z hz))
          rw [List.filter_cons, if_pos (by simpa using hnotP)]
          simp only [List.length_cons] at h2 ⊢
          omega
        · have h2 := ih seen acc hseen
          rw [List.filter_cons]
          split
          · simp only [List.length_cons]
            omega
          · omega

/-- C5: the precomputed_related response is the ranked prefix followed by the
genre-random suffix; the suffix's mapped Ids are disjoint from the prefix's,
and the suffix is no longer than the configured pick count and no longer
than the number of fetched candidates whose mapped Id is absent from the
prefix. -/
theorem C5_related_disjoint_and_bounded (numPicks : Nat)
    (primary candidates : List MovieDict) :
    precomputedRelatedResponse numPicks primary candidates
      = primary ++ genreRandomRelatedList numPicks primary candidates ∧
    ((genreRandomRelatedList numPicks primary candidates).map MovieDict.Id).Disjoint
      (primary.map MovieDict.Id) ∧
    (genreRandomRelatedList numPicks primary candidates).length ≤ numPicks ∧
    (genreRandomRelatedList numPicks primary candidates).length
      ≤ (candidates.filter
          (fun m => decide (m.Id ∉ primary.map MovieDict.Id))).length := by
  refine ⟨rfl, ?_, ?_, ?_⟩
  · intro x hx hxP
    unfold genreRandomRelatedList at hx
    split at hx
    · obtain ⟨m, hm, rfl⟩ := List.mem_map.mp hx
      exact genrePickLoop_avoids numPicks (primary.map MovieDict.Id) candidates
        (primary.map MovieDict.Id) [] (fun z hz => hz) (by simp) m hm hxP
    · simp at hx
  · unfold genreRandomRelatedList
    split
    · exact genrePickLoop_length_le _ _ _ _ (by simp)
    · simp
  · unfold genreRandomRelatedList
    split
    · have h := genrePickLoop_length_le_filter numPicks (primary.map MovieDict.Id)
        candidates (primary.map MovieDict.Id) [] (fun z hz => hz)
      simpa using h
    · simp

/-! ## Theorems for collection creation (C7) -/

/-- C7: a missing or blank-trimming name is answered 400 with the table
unchanged; a name already present is answered 409 "Collection name already
exists" with the table unchanged; otherwise the row is inserted and the
response is 201 with the generated id and the trimmed name. -/
theorem C7_create_collection (db : MovieCollectionsDb) (payloadName : Option String) :
    (payloadName.map jsTrim = none ∨ payloadName.map jsTrim = some "" →
      postMovieCollection db payloadName
        = (CollectionPostResult.badRequest "Name required", db)) ∧
    (∀ t, payloadName.map jsTrim = some t → t ≠ "" →
      (nameTaken db t = true →
        postMovieCollection db payloadName
          = (CollectionPostResult.conflict "Collection name already exists", db)) ∧
      (nameTaken db t = false →
        postMovieCollection db payloadName
          = (CollectionPostResult.created db.nextId t,
            { nextId := db.nextId + 1, rows := db.rows ++ [(db.nextId, t)] }))) := by
  constructor
  · rintro (h | h) <;> simp [postMovieCollection, h]
  · intro t ht hne
    constructor <;> intro htaken <;> simp [postMovieCollection, ht, hne, htaken]

/-- Witness for C7 on a concrete table: creating "  Action  " succeeds with
the generated id and the trimmed name, re-creating "Favorites" conflicts
with no new row, and a blank name is a 400. -/
theorem C7_witness :
    postMovieCollection c7Db (some "  Action  ")
      = (CollectionPostResult.created 5 "Action",
        { nextId := 6, rows := [(1, "Favorites"), (5, "Action")] }) ∧
    postMovieCollection c7Db (some "Favorites")
      = (CollectionPostResult.conflict "Collection name already exists", c7Db) ∧
    postMovieCollection c7Db (some "   ")
      = (CollectionPostResult.badRequest "Name required", c7Db) := by
  refine ⟨?_, ?_, ?_⟩
  · exact ((C7_create_collection c7Db (some "  Action  ")).2 "Action"
      (by decide) (by decide)).2 (by decide)
  · exact ((C7_create_collection c7Db (some "Favorites")).2 "Favorites"
      (by decide) (by decide)).1 (by decide)
  · exact (C7_create_collection c7Db (some "   ")).1 (Or.inr (by decide))

/-! ## The JSON codec round-trip (towards C4) -/

theorem skipJsonWs_cons {c : Char} (t : List Char) (h : isJsonWs c = false) :
    skipJsonWs (c :: t) = c :: t := by
  simp [skipJsonWs, List.dropWhile_cons, h]

theorem parseJsonElems_succ (f : Nat) (cs : List Char) :
    parseJsonElems (f + 1) cs
      = (match parseJsonValue f cs with
        | none => none
        | some (v, r) =>
            match skipJsonWs r with
            | ',' :: r2 => (parseJsonElems f r2).map (fun p => (v :: p.1, p.2))
            | ']' :: r2 => some ([v], r2)
            | _ => none) := rfl

theorem parseJsonMembers_succ (f : Nat) (cs : List Char) :
    parseJsonMembers (f + 1) cs
      = (match skipJsonWs cs with
        | '"' :: r =>
            (match parseStringBody r with
              | none => none
              | some (key, r1) =>
                  match skipJsonWs r1 with
                  | ':' :: r2 =>
                      (match parseJsonValue f r2 with
                        | none => none
                        | some (v, r3) =>
                            match skipJsonWs r3 with
                            | ',' :: r4 =>
                                (parseJsonMembers f r4).map
                                  (fun p => ((String.mk key, v) :: p.1, p.2))
                            | '\x7d' :: r4 => some ([(String.mk key, v)], r4)
                            | _ => none)
                  | _ => none)
        | _ => none) := rfl

/-- The value parser at successor fuel on input with a known non-whitespace
head: the literal dispatch laid bare. -/
theorem parseJsonValue_succ_cons (f : Nat) (c : Char) (rest : List Char)
    (hws : isJsonWs c = false) :
    parseJsonValue (f + 1) (c :: rest)
      = (if c = 'n' then (stripExact ['u', 'l', 'l'] rest).map (fun r => (JsonValue.null, r))
        else if c = 't' then (stripExact ['r', 'u', 'e'] rest).map (fun r => (JsonValue.bool true, r))
        else if c = 'f' then (stripExact ['a', 'l', 's', 'e'] rest).map (fun r => (JsonValue.bool false, r))
        else if c = '"' then (parseStringBody rest).map (fun p => (JsonValue.str (String.mk p.1), p.2))
        else if c = '[' then
          match skipJsonWs rest with
          | ']' :: r => some (JsonValue.arr [], r)
          | other => (parseJsonElems f other).map (fun p => (JsonValue.arr p.1, p.2))
        else if c = '\x7b' then
          match skipJsonWs rest with
          | '\x7d' :: r => some (JsonValue.obj [], r)
          | other => (parseJsonMembers f other).map (fun p => (JsonValue.obj p.1, p.2))
        else if c = '-' ∨ isDecDigit c = true then
          (parseJsonNumberChars (c :: rest)).map (fun p => (JsonValue.num p.1, p.2))
        else none) := by
  have h0 : parseJsonValue (f + 1) (c :: rest)
      = (match skipJsonWs (c :: rest) with
        | [] => none
        | c :: rest =>
            if c = 'n' then (stripExact ['u', 'l', 'l'] rest).map (fun r => (JsonValue.null, r))
            else if c = 't' then (stripExact ['r', 'u', 'e'] rest).map (fun r => (JsonValue.bool true, r))
            else if c = 'f' then (stripExact ['a', 'l', 's', 'e'] rest).map (fun r => (JsonValue.bool false, r))
            else if c = '"' then (parseStringBody rest).map (fun p => (JsonValue.str (String.mk p.1), p.2))
            else if c = '[' then
              match skipJsonWs rest with
              | ']' :: r => some (JsonValue.arr [], r)
              | other => (parseJsonElems f other).map (fun p => (JsonValue.arr p.1, p.2))
            else if c = '\x7b' then
              match skipJsonWs rest with
              | '\x7d' :: r => some (JsonValue.obj [], r)
              | other => (parseJsonMembers f other).map (fun p => (JsonValue.obj p.1, p.2))
            else if c = '-' ∨ isDecDigit c = true then
              (parseJsonNumberChars (c :: rest)).map (fun p => (JsonValue.num p.1, p.2))
            else none) := rfl
  rw [h0, skipJsonWs_cons rest hws]

theorem isDecDigit_ne_lits {c : Char} (h : isDecDigit c = true) :
    c ≠ 'n' ∧ c ≠ 't' ∧ c ≠ 'f' ∧ c ≠ '"' ∧ c ≠ '[' ∧ c ≠ '\x7b'
      ∧ c ≠ ']' ∧ c ≠ '-' := by
  refine ⟨?_, ?_, ?_, ?_, ?_, ?_, ?_, ?_⟩ <;> (intro heq; subst heq; exact absurd h (by decide))

theorem isDecDigit_not_ws {c : Char} (h : isDecDigit c = true) :
    isJsonWs c = false := by
  cases hb : isJsonWs c with
  | false => rfl
  | true =>
      exfalso
      simp only [isJsonWs, Bool.or_eq_true, decide_eq_true_eq] at hb
      rcases hb with ((rfl | rfl) | rfl) | rfl <;> exact absurd h (by decide)

theorem digitCharOf_spec {d : Nat} (h : d < 10) :
    isDecDigit (digitCharOf d) = true ∧ decDigitVal (digitCharOf d) = d := by
  interval_cases d <;> exact ⟨by decide, by decide⟩

theorem natDigitsRev_nonempty (n : Nat) : natDigitsRev n ≠ [] := by
  rw [natDigitsRev]
  split <;> simp

theorem natChars_small {n : Nat} (h : n < 10) : natChars n = [digitCharOf n] := by
  rw [natChars, natDigitsRev, if_pos h]
  rfl

theorem natChars_ten {n : Nat} (h : 10 ≤ n) :
    natChars n = natChars (n / 10) ++ [digitCharOf (n % 10)] := by
  rw [natChars, natDigitsRev, if_neg (by omega)]
  simp [natChars, List.reverse_cons]

theorem natChars_digits (n : Nat) : ∀ c ∈ natChars n, isDecDigit c = true := by
  induction n using Nat.strong_induction_on with
  | _ n ih =>
    by_cases h : n < 10
    · rw [natChars_small h]
      intro c hc
      rw [List.mem_singleton] at hc
      subst hc
      exact (digitCharOf_spec h).1
    · rw [natChars_ten (by omega)]
      intro c hc
      rcases List.mem_append.mp hc with h1 | h2
      · exact ih (n / 10) (Nat.div_lt_self (by omega) (by omega)) c h1
      · rw [List.mem_singleton] at h2
        subst h2
        exact (digitCharOf_spec (Nat.mod_lt _ (by omega))).1

theorem natOfDigits_append (xs : List Char) (c : Char) :
    natOfDigits (xs ++ [c]) = natOfDigits xs * 10 + decDigitVal c := by
  simp [natOfDigits, List.foldl_append]

theorem natOfDigits_natChars (n : Nat) : natOfDigits (natChars n) = n := by
  induction n using Nat.strong_induction_on with
  | _ n ih =>
    by_cases h : n < 10
    · rw [natChars_small h]
      simpa [natOfDigits] using (digitCharOf_spec h).2
    · rw [natChars_ten (by omega), natOfDigits_append,
        ih (n / 10) (Nat.div_lt_self (by omega) (by omega)),
        (digitCharOf_spec (Nat.mod_lt _ (by omega) : n % 10 < 10)).2]
      omega

theorem natChars_head (n : Nat) :
    ∃ d t, natChars n = d :: t ∧ isDecDigit d = true ∧ (d = '0' → n = 0 ∧ t = []) := by
  induction n using Nat.strong_induction_on with
  | _ n ih =>
    by_cases h : n < 10
    · rw [natChars_small h]
      refine ⟨digitCharOf n, [], rfl, (digitCharOf_spec h).1, ?_⟩
      intro h0
      refine ⟨?_, rfl⟩
      interval_cases n
      · rfl
      all_goals exact absurd h0 (by decide)
    · rw [natChars_ten (by omega)]
      obtain ⟨d, t, heq, hd, hzero⟩ := ih (n / 10) (Nat.div_lt_self (by omega) (by omega))
      refine ⟨d, t ++ [digitCharOf (n % 10)], by simp [heq], hd, ?_⟩
      intro h0
      obtain ⟨hq, -⟩ := hzero h0
      omega

theorem digitRun_take {rest : List Char} (hrest : restStopsNumber rest) :
    ∀ ds : List Char, (∀ c ∈ ds, isDecDigit c = true) →
      (ds ++ rest).takeWhile isDecDigit = ds
        ∧ (ds ++ rest).dropWhile isDecDigit = rest := by
  intro ds
  induction ds with
  | nil =>
      intro _
      cases rest with
      | nil => exact ⟨rfl, rfl⟩
      | cons c t =>
          simp only [restStopsNumber] at hrest
          simp [List.takeWhile_cons, List.dropWhile_cons, hrest]
  | cons c cs ih =>
      intro hall
      have hc := hall c (by simp)
      have iht := ih (fun x hx => hall x (by simp [hx]))
      simp [List.takeWhile_cons, List.dropWhile_cons, hc, iht.1, iht.2]

theorem parseJsonNat_natChars (n : Nat) (rest : List Char)
    (hrest : restStopsNumber rest) :
    parseJsonNat (natChars n ++ rest) = some (n, rest) := by
  obtain ⟨d, t, heq, hd, hzero⟩ := natChars_head n
  have hrun := digitRun_take hrest (natChars n) (natChars_digits n)
  simp only [parseJsonNat]
  rw [hrun.1, hrun.2]
  simp only [heq]
  rw [if_neg (by rintro ⟨rfl, hne⟩; exact hne (hzero rfl).2), ← heq,
    natOfDigits_natChars]

theorem parseJsonNumberChars_intChars (n : Int) (rest : List Char)
    (hrest : restStopsNumber rest) :
    parseJsonNumberChars (intChars n ++ rest) = some (n, rest) := by
  by_cases hneg : n < 0
  · rw [intChars, if_pos hneg]
    simp only [List.cons_append, parseJsonNumberChars, if_pos rfl]
    rw [parseJsonNat_natChars _ _ hrest]
    show some (-((n.natAbs : Nat) : Int), rest) = some (n, rest)
    rw [show -((n.natAbs : Nat) : Int) = n by omega]
  · rw [intChars, if_neg hneg]
    obtain ⟨d, t, heq, hd, -⟩ := natChars_head n.natAbs
    have hdm := (isDecDigit_ne_lits hd).2.2.2.2.2.2.2
    rw [heq]
    simp only [List.cons_append, parseJsonNumberChars, if_neg hdm]
    rw [← List.cons_append, ← heq, parseJsonNat_natChars _ _ hrest]
    show some (((n.natAbs : Nat) : Int), rest) = some (n, rest)
    rw [show ((n.natAbs : Nat) : Int) = n by omega]

theorem intChars_head (n : Int) :
    ∃ c t, intChars n = c :: t ∧ (c = '-' ∨ isDecDigit c = true) := by
  by_cases h : n < 0
  · exact ⟨'-', natChars n.natAbs, by rw [intChars, if_pos h], Or.inl rfl⟩
  · obtain ⟨d, t, heq, hd, -⟩ := natChars_head n.natAbs
    exact ⟨d, t, by rw [intChars, if_neg h, heq], Or.inr hd⟩

theorem numStart_facts {c : Char} (h : c = '-' ∨ isDecDigit c = true) :
    isJsonWs c = false ∧ c ≠ 'n' ∧ c ≠ 't' ∧ c ≠ 'f' ∧ c ≠ '"'
      ∧ c ≠ '[' ∧ c ≠ '\x7b' := by
  rcases h with rfl | hd
  · exact ⟨by decide, by decide, by decide, by decide, by decide, by decide, by decide⟩
  · obtain ⟨h1, h2, h3, h4, h5, h6, -, -⟩ := isDecDigit_ne_lits hd
    exact ⟨isDecDigit_not_ws hd, h1, h2, h3, h4, h5, h6⟩

theorem hexDigitVal_lowHexChar {d : Nat} (h : d < 16) :
    hexDigitVal (lowHexChar d) = some d := by
  interval_cases d <;> decide

theorem parseStringBody_escape (c : Char) (t : List Char) :
    parseStringBody (escapeJsonChar c ++ t)
      = (parseStringBody t).map (fun p => (c :: p.1, p.2)) := by
  by_cases h1 : c = '"'
  · subst h1; rfl
  by_cases h2 : c = '\\'
  · subst h2; rfl
  by_cases h3 : c = '\x08'
  · subst h3; rfl
  by_cases h4 : c = '\t'
  · subst h4; rfl
  by_cases h5 : c = '\n'
  · subst h5; rfl
  by_cases h6 : c = '\x0c'
  · subst h6; rfl
  by_cases h7 : c = '\x0d'
  · subst h7; rfl
  by_cases hctl : c.toNat < 32
  · -- the \u00XX control escapes: finitely many characters, each computes
    have hc : c = Char.ofNat c.toNat := (Char.ofNat_toNat c).symm
    set k := c.toNat with hk
    have hc2 : c = Char.ofNat k := hc
    clear_value k
    interval_cases k <;> subst hc2 <;>
      first
        | rfl
        | exact absurd rfl h3
        | exact absurd rfl h4
        | exact absurd rfl h5
        | exact absurd rfl h6
        | exact absurd rfl h7
  · rw [escapeJsonChar, if_neg h1, if_neg h2, if_neg h3, if_neg h4, if_neg h5,
      if_neg h6, if_neg h7, if_neg hctl]
    rw [List.singleton_append, parseStringBody.eq_def]
    simp [h1, h2, hctl]

theorem parseStringBody_encode (cs : List Char) :
    ∀ t, parseStringBody (cs.flatMap escapeJsonChar ++ '"' :: t) = some (cs, t) := by
  induction cs with
  | nil =>
      intro t
      rw [show ([] : List Char).flatMap escapeJsonChar ++ '"' :: t = '"' :: t by simp,
        parseStringBody.eq_def]
      rfl
  | cons c cs ih =>
      intro t
      rw [List.flatMap_cons, List.append_assoc, parseStringBody_escape, ih]
      rfl

theorem renderChars_head (v : JsonValue) :
    ∃ c t, renderChars v = c :: t ∧ isJsonWs c = false ∧ c ≠ ']' := by
  cases v with
  | null => exact ⟨'n', ['u', 'l', 'l'], by simp [renderChars], by decide, by decide⟩
  | bool b =>
      cases b with
      | false => exact ⟨'f', ['a', 'l', 's', 'e'], by simp [renderChars], by decide, by decide⟩
      | true => exact ⟨'t', ['r', 'u', 'e'], by simp [renderChars], by decide, by decide⟩
  | num n =>
      obtain ⟨c, t, heq, hnum⟩ := intChars_head n
      refine ⟨c, t, by simp [renderChars, heq], ?_, ?_⟩
      · rcases hnum with rfl | hd
        · decide
        · exact isDecDigit_not_ws hd
      · rcases hnum with rfl | hd
        · decide
        · exact (isDecDigit_ne_lits hd).2.2.2.2.2.2.1
  | str s =>
      exact ⟨'"', s.toList.flatMap escapeJsonChar ++ ['"'],
        by simp [renderChars, encodeStringChars], by decide, by decide⟩
  | arr es =>
      cases es with
      | nil => exact ⟨'[', [']'], by simp [renderChars], by decide, by decide⟩
      | cons x xs =>
          exact ⟨'[', renderChars x ++ renderElemsTail xs ++ [']'],
            by simp [renderChars], by decide, by decide⟩
  | obj ms =>
      cases ms with
      | nil => exact ⟨'\x7b', ['\x7d'], by simp [renderChars], by decide, by decide⟩
      | cons m ms2 =>
          obtain ⟨k, v2⟩ := m
          exact ⟨'\x7b', encodeStringChars k ++ ':' :: renderChars v2
              ++ renderMembersTail ms2 ++ ['\x7d'],
            by simp [renderChars], by decide, by decide⟩

theorem renderChars_length_pos (v : JsonValue) : 1 ≤ (renderChars v).length := by
  obtain ⟨c, t, heq, -, -⟩ := renderChars_head v
  simp [heq]

theorem encodeStringChars_length (k : String) :
    (encodeStringChars k).length = (k.toList.flatMap escapeJsonChar).length + 2 := by
  simp [encodeStringChars]

theorem restStopsNumber_cons {c : Char} (t : List Char) (h : isDecDigit c = false) :
    restStopsNumber (c :: t) := by
  simpa [restStopsNumber] using h

theorem arrDispatch (f : Nat) (c : Char) (w : List Char) (hc : c ≠ ']') :
    (match c :: w with
      | ']' :: r => some (JsonValue.arr [], r)
      | other => (parseJsonElems f other).map (fun p => (JsonValue.arr p.1, p.2)))
      = (parseJsonElems f (c :: w)).map (fun p => (JsonValue.arr p.1, p.2)) := by
  split
  · rename_i heq
    injection heq with h1 h2
    exact absurd h1 hc
  · rfl

theorem objDispatch (f : Nat) (c : Char) (w : List Char) (hc : c ≠ '\x7d') :
    (match c :: w with
      | '\x7d' :: r => some (JsonValue.obj [], r)
      | other => (parseJsonMembers f other).map (fun p => (JsonValue.obj p.1, p.2)))
      = (parseJsonMembers f (c :: w)).map (fun p => (JsonValue.obj p.1, p.2)) := by
  split
  · rename_i heq
    injection heq with h1 h2
    exact absurd h1 hc
  · rfl

/-- The codec round-trip engine: at sufficient fuel, parsing a rendered
value (or element / member tail) consumes exactly the rendered characters
and recovers the value. -/
theorem jsonCodec_aux : ∀ fuel : Nat,
    (∀ (v : JsonValue) (rest : List Char),
      (renderChars v).length < fuel → restStopsNumber rest →
      parseJsonValue fuel (renderChars v ++ rest) = some (v, rest)) ∧
    (∀ (x : JsonValue) (xs : List JsonValue) (rest : List Char),
      (renderChars x).length + (renderElemsTail xs).length + 1 < fuel →
      parseJsonElems fuel (renderChars x ++ renderElemsTail xs ++ ']' :: rest)
        = some (x :: xs, rest)) ∧
    (∀ (k : String) (v : JsonValue) (ms : List (String × JsonValue)) (rest : List Char),
      (encodeStringChars k).length + (renderChars v).length
          + (renderMembersTail ms).length + 2 < fuel →
      parseJsonMembers fuel
          (encodeStringChars k ++ ':' :: renderChars v ++ renderMembersTail ms
            ++ '\x7d' :: rest)
        = some ((k, v) :: ms, rest)) := by
  intro fuel
  induction fuel with
  | zero => refine ⟨?_, ?_, ?_⟩ <;> intros <;> omega
  | succ f ih =>
      obtain ⟨iha, ihb, ihc⟩ := ih
      refine ⟨?_, ?_, ?_⟩
      · intro v rest hlen hrest
        cases v with
        | null =>
            rw [show renderChars JsonValue.null = ['n', 'u', 'l', 'l'] from by
              simp [renderChars]]
            rw [show (['n', 'u', 'l', 'l'] : List Char) ++ rest
              = 'n' :: 'u' :: 'l' :: 'l' :: rest from rfl]
            rw [parseJsonValue_succ_cons f 'n' _ (by decide)]
            rfl
        | bool b =>
            cases b with
            | true =>
                rw [show renderChars (JsonValue.bool true) = ['t', 'r', 'u', 'e'] from by
                  simp [renderChars]]
                rw [show (['t', 'r', 'u', 'e'] : List Char) ++ rest
                  = 't' :: 'r' :: 'u' :: 'e' :: rest from rfl]
                rw [parseJsonValue_succ_cons f 't' _ (by decide)]
                rfl
            | false =>
                rw [show renderChars (JsonValue.bool false) = ['f', 'a', 'l', 's', 'e'] from by
                  simp [renderChars]]
                rw [show (['f', 'a', 'l', 's', 'e'] : List Char) ++ rest
                  = 'f' :: 'a' :: 'l' :: 's' :: 'e' :: rest from rfl]
                rw [parseJsonValue_succ_cons f 'f' _ (by decide)]
                rfl
        | num n =>
            rw [show renderChars (JsonValue.num n) = intChars n from by simp [renderChars]]
            obtain ⟨c0, t0, heq, hnum⟩ := intChars_head n
            obtain ⟨hws, hn, ht, hf, hq, hbk, hbc⟩ := numStart_facts hnum
            rw [heq, List.cons_append, parseJsonValue_succ_cons f c0 _ hws]
            rw [if_neg hn, if_neg ht, if_neg hf, if_neg hq, if_neg hbk, if_neg hbc,
              if_pos (Or.imp_right (fun h => h) hnum)]
            rw [← List.cons_append, ← heq, parseJsonNumberChars_intChars n rest hrest]
            rfl
        | str s =>
            rw [show renderChars (JsonValue.str s)
              = '"' :: (s.toList.flatMap escapeJsonChar ++ ['"']) from by
              simp [renderChars, encodeStringChars]]
            rw [List.cons_append, parseJsonValue_succ_cons f '"' _ (by decide)]
            rw [if_neg (by decide), if_neg (by decide), if_neg (by decide), if_pos rfl]
            rw [show (s.toList.flatMap escapeJsonChar ++ ['"']) ++ rest
              = s.toList.flatMap escapeJsonChar ++ '"' :: rest from by simp]
            rw [parseStringBody_encode]
            rfl
        | arr es =>
            cases es with
            | nil =>
                rw [show renderChars (JsonValue.arr []) = ['[', ']'] from by
                  simp [renderChars]]
                rw [show (['[', ']'] : List Char) ++ rest = '[' :: ']' :: rest from rfl]
                rw [parseJsonValue_succ_cons f '[' _ (by decide)]
                rw [if_neg (by decide), if_neg (by decide), if_neg (by decide),
                  if_neg (by decide), if_pos rfl]
                rw [skipJsonWs_cons _ (by decide)]
                rfl
            | cons x xs =>
                have hlen2 : (renderChars (JsonValue.arr (x :: xs))).length
                    = (renderChars x).length + (renderElemsTail xs).length + 2 := by
                  simp [renderChars]
                  omega
                rw [show renderChars (JsonValue.arr (x :: xs))
                  = '[' :: (renderChars x ++ renderElemsTail xs ++ [']']) from by
                  simp [renderChars]]
                rw [List.cons_append, parseJsonValue_succ_cons f '[' _ (by decide)]
                rw [if_neg (by decide), if_neg (by decide), if_neg (by decide),
                  if_neg (by decide), if_pos rfl]
                rw [show (renderChars x ++ renderElemsTail xs ++ [']']) ++ rest
                  = renderChars x ++ renderElemsTail xs ++ ']' :: rest from by simp]
                obtain ⟨c0, t0, hx, hws0, hnb⟩ := renderChars_head x
                rw [show renderChars x ++ renderElemsTail xs ++ ']' :: rest
                  = c0 :: (t0 ++ renderElemsTail xs ++ ']' :: rest) from by
                  rw [hx]; simp]
                rw [skipJsonWs_cons _ hws0, arrDispatch f c0 _ hnb]
                rw [show c0 :: (t0 ++ renderElemsTail xs ++ ']' :: rest)
                  = renderChars x ++ renderElemsTail xs ++ ']' :: rest from by
                  rw [hx]; simp]
                rw [ihb x xs rest (by omega)]
                rfl
        | obj ms =>
            cases ms with
            | nil =>
                rw [show renderChars (JsonValue.obj []) = ['\x7b', '\x7d'] from by
                  simp [renderChars]]
                rw [show (['\x7b', '\x7d'] : List Char) ++ rest
                  = '\x7b' :: '\x7d' :: rest from rfl]
                rw [parseJsonValue_succ_cons f '\x7b' _ (by decide)]
                rw [if_neg (by decide), if_neg (by decide), if_neg (by decide),
                  if_neg (by decide), if_neg (by decide), if_pos rfl]
                rw [skipJsonWs_cons _ (by decide)]
                rfl
            | cons m ms2 =>
                obtain ⟨k, v2⟩ := m
                have hlen2 : (renderChars (JsonValue.obj ((k, v2) :: ms2))).length
                    = (encodeStringChars k).length + (renderChars v2).length
                      + (renderMembersTail ms2).length + 3 := by
                  simp [renderChars]
                  omega
                have hencpos := encodeStringChars_length k
                rw [show renderChars (JsonValue.obj ((k, v2) :: ms2))
                  = '\x7b' :: (encodeStringChars k ++ ':' :: renderChars v2
                      ++ renderMembersTail ms2 ++ ['\x7d']) from by simp [renderChars]]
                rw [List.cons_append, parseJsonValue_succ_cons f '\x7b' _ (by decide)]
                rw [if_neg (by decide), if_neg (by decide), if_neg (by decide),
                  if_neg (by decide), if_neg (by decide), if_pos rfl]
                rw [show (encodeStringChars k ++ ':' :: renderChars v2
                      ++ renderMembersTail ms2 ++ ['\x7d']) ++ rest
                  = '"' :: (k.toList.flatMap escapeJsonChar ++ '"'
                      :: (':' :: (renderChars v2 ++ renderMembersTail ms2
                        ++ '\x7d' :: rest))) from by simp [encodeStringChars]]
                rw [skipJsonWs_cons _ (by decide)]
                rw [objDispatch f '"' _ (by decide)]
                rw [show ('"' :: (k.toList.flatMap escapeJsonChar ++ '"'
                      :: (':' :: (renderChars v2 ++ renderMembersTail ms2
                        ++ '\x7d' :: rest))))
                  = encodeStringChars k ++ ':' :: renderChars v2
                      ++ renderMembersTail ms2 ++ '\x7d' :: rest from by
                  simp [encodeStringChars]]
                rw [ihc k v2 ms2 rest (by omega)]
                rfl
      · intro x xs rest hlen
        rw [parseJsonElems_succ]
        have hxpos := renderChars_length_pos x
        have hstop : restStopsNumber (renderElemsTail xs ++ ']' :: rest) := by
          cases xs with
          | nil =>
              rw [show renderElemsTail ([] : List JsonValue) ++ ']' :: rest
                = ']' :: rest from by simp [renderElemsTail]]
              exact restStopsNumber_cons _ (by decide)
          | cons y ys =>
              rw [show renderElemsTail (y :: ys) ++ ']' :: rest
                = ',' :: (renderChars y ++ renderElemsTail ys ++ ']' :: rest) from by
                simp [renderElemsTail]]
              exact restStopsNumber_cons _ (by decide)
        rw [show renderChars x ++ renderElemsTail xs ++ ']' :: rest
          = renderChars x ++ (renderElemsTail xs ++ ']' :: rest) from by simp]
        rw [iha x (renderElemsTail xs ++ ']' :: rest) (by omega) hstop]
        simp only []
        cases xs with
        | nil =>
            rw [show renderElemsTail ([] : List JsonValue) ++ ']' :: rest
              = ']' :: rest from by simp [renderElemsTail]]
            rw [skipJsonWs_cons _ (by decide)]
            rfl
        | cons y ys =>
            have hlen3 : (renderElemsTail (y :: ys)).length
                = 1 + (renderChars y).length + (renderElemsTail ys).length := by
              simp [renderElemsTail]
              omega
            rw [show renderElemsTail (y :: ys) ++ ']' :: rest
              = ',' :: (renderChars y ++ renderElemsTail ys ++ ']' :: rest) from by
              simp [renderElemsTail]]
            rw [skipJsonWs_cons _ (by decide)]
            show (parseJsonElems f (renderChars y ++ renderElemsTail ys ++ ']' :: rest)).map
                (fun p => (x :: p.1, p.2)) = some (x :: y :: ys, rest)
            rw [ihb y ys rest (by omega)]
            rfl
      · intro k v ms rest hlen
        have hvpos := renderChars_length_pos v
        have henclen := encodeStringChars_length k
        rw [parseJsonMembers_succ]
        rw [show encodeStringChars k ++ ':' :: renderChars v ++ renderMembersTail ms
              ++ '\x7d' :: rest
          = '"' :: (k.toList.flatMap escapeJsonChar ++ '"'
              :: (':' :: (renderChars v ++ (renderMembersTail ms ++ '\x7d' :: rest)))) from by
          simp [encodeStringChars]]
        rw [skipJsonWs_cons _ (by decide)]
        simp only []
        rw [parseStringBody_encode]
        simp only []
        rw [skipJsonWs_cons _ (by decide)]
        simp only []
        have hstop : restStopsNumber (renderMembersTail ms ++ '\x7d' :: rest) := by
          cases ms with
          | nil =>
              rw [show renderMembersTail ([] : List (String × JsonValue)) ++ '\x7d' :: rest
                = '\x7d' :: rest from by simp [renderMembersTail]]
              exact restStopsNumber_cons _ (by decide)
          | cons m2 ms2 =>
              obtain ⟨k2, v2⟩ := m2
              rw [show renderMembersTail ((k2, v2) :: ms2) ++ '\x7d' :: rest
                = ',' :: (encodeStringChars k2 ++ ':' :: renderChars v2
                    ++ renderMembersTail ms2 ++ '\x7d' :: rest) from by
                simp [renderMembersTail]]
              exact restStopsNumber_cons _ (by decide)
        rw [iha v (renderMembersTail ms ++ '\x7d' :: rest) (by omega) hstop]
        simp only []
        cases ms with
        | nil =>
            rw [show renderMembersTail ([] : List (String × JsonValue)) ++ '\x7d' :: rest
              = '\x7d' :: rest from by simp [renderMembersTail]]
            rw [skipJsonWs_cons _ (by decide)]
            rfl
        | cons m2 ms2 =>
            obtain ⟨k2, v2⟩ := m2
            have hlen3 : (renderMembersTail ((k2, v2) :: ms2)).length
                = (encodeStringChars k2).length + (renderChars v2).length
                  + (renderMembersTail ms2).length + 2 := by
              simp [renderMembersTail]
              omega
            rw [show renderMembersTail ((k2, v2) :: ms2) ++ '\x7d' :: rest
              = ',' :: (encodeStringChars k2 ++ ':' :: renderChars v2
                  ++ renderMembersTail ms2 ++ '\x7d' :: rest) from by
              simp [renderMembersTail]]
            rw [skipJsonWs_cons _ (by decide)]
            show (parseJsonMembers f (encodeStringChars k2 ++ ':' :: renderChars v2
                  ++ renderMembersTail ms2 ++ '\x7d' :: rest)).map
                (fun p => ((String.mk k.toList, v) :: p.1, p.2))
              = some ((k, v) :: (k2, v2) :: ms2, rest)
            rw [ihc k2 v2 ms2 rest (by omega)]
            rfl

/-- JSON.parse inverts JSON.stringify on every modelled value. -/
theorem jsonParse_stringify (v : JsonValue) :
    jsonParse (jsonStringify v) = some v := by
  unfold jsonParse
  rw [show (jsonStringify v).toList = renderChars v from rfl]
  have h := (jsonCodec_aux ((renderChars v).length + 1)).1 v [] (by omega) trivial
  rw [List.append_nil] at h
  rw [h]
  rfl

/-- C4: `parseJsonField` is total; the empty string, null and undefined all
decode to the empty list; a stringified list decodes back to the same
ordered list; and a non-empty string that fails JSON parsing is split on
commas into trimmed non-empty tokens instead of raising. -/
theorem C4_parse_json_field_total_roundtrip :
    (∀ l : List JsonValue,
      parseJsonField (JsValue.jval (JsonValue.str (jsonStringify (JsonValue.arr l)))) = l) ∧
    parseJsonField JsValue.undef = [] ∧
    parseJsonField (JsValue.jval JsonValue.null) = [] ∧
    parseJsonField (JsValue.jval (JsonValue.str "")) = [] ∧
    (∀ s : String, s ≠ "" → jsonParse s = none →
      parseJsonField (JsValue.jval (JsonValue.str s))
        = (commaSplitTrim s).map JsonValue.str) := by
  refine ⟨?_, rfl, rfl, rfl, ?_⟩
  · intro l
    have hd : (jsonStringify (JsonValue.arr l)).data = renderChars (JsonValue.arr l) := rfl
    obtain ⟨c, t, heq, -, -⟩ := renderChars_head (JsonValue.arr l)
    have hne : jsonStringify (JsonValue.arr l) ≠ "" := by
      intro h
      rw [h, heq] at hd
      exact absurd hd (by simp)
    simp only [parseJsonField]
    rw [if_neg hne, jsonParse_stringify]
  · intro s hs hnone
    simp only [parseJsonField]
    rw [if_neg hs, hnone]

/-- Witness for C4: the non-JSON column value "a, b" decodes via the
comma-split fallback to the two trimmed tokens. -/
theorem C4_witness :
    parseJsonField (JsValue.jval (JsonValue.str "a, b"))
      = [JsonValue.str "a", JsonValue.str "b"] := by
  have h := C4_parse_json_field_total_roundtrip.2.2.2.2 "a, b" (by decide) rfl
  rw [h]
  rfl

end MediaPage
